import Mathlib

/-!
Verification of the TaskRabbitScanner extraction/pagination engine.

A shallow embedding of the engine found in `taskrabbit/scraper.py` and of the
name validators `is_valid_person_name` / `is_potential_name` of
`TaskRabbitParser`.  Browser/DOM collaborators (Selenium element handles) are
modelled as value-level inputs: an element is a record of its `is_displayed()
` flag, its `text` and its `href`; a tasker card is a record of the element
lists the various selector cascades would return together with its `text` and
`innerHTML`.  Strings are modelled over their ASCII fragment: Python
`str.isalpha` / `str.isdigit` / `str.lower` are modelled by the corresponding
ASCII predicates, which agree with Python on every string the scraper
manipulates.
-/

namespace TRS

set_option maxRecDepth 16384

/-! ### Character helpers (ASCII fragment of the Python `str` predicates) -/

def isAsciiUpper (c : Char) : Bool := 65 ≤ c.toNat && c.toNat ≤ 90

def isAsciiLower (c : Char) : Bool := 97 ≤ c.toNat && c.toNat ≤ 122

def isAsciiAlpha (c : Char) : Bool := isAsciiUpper c || isAsciiLower c

def isAsciiDigit (c : Char) : Bool := 48 ≤ c.toNat && c.toNat ≤ 57

/-- Python whitespace for `str.strip` / `str.split` / regex `\s`. -/
def isPySpace (c : Char) : Bool :=
  c.toNat = 32 || c.toNat = 9 || c.toNat = 10 || c.toNat = 13 ||
  c.toNat = 11 || c.toNat = 12

/-- Regex word character (`\w`, ASCII fragment), for `\b` boundaries. -/
def isWordChar (c : Char) : Bool := isAsciiAlpha c || isAsciiDigit c || c.toNat = 95

/-- Python `str.lower`, ASCII fragment. -/
def lowerCh (c : Char) : Char := if isAsciiUpper c then Char.ofNat (c.toNat + 32) else c

/-! ### List-of-char helpers modelling Python string operations -/

/-- Python `str.strip()`. -/
def pyStrip (l : List Char) : List Char :=
  ((l.dropWhile isPySpace).reverse.dropWhile isPySpace).reverse

/-- Worker for `pySplit`, accumulating the current (reversed) token. -/
def splitAux : List Char → List Char → List (List Char)
  | [], acc => if acc.isEmpty then [] else [acc.reverse]
  | ch :: rest, acc =>
    if isPySpace ch then
      if acc.isEmpty then splitAux rest []
      else acc.reverse :: splitAux rest []
    else splitAux rest (ch :: acc)

/-- Python `str.split()` (split on whitespace runs, no empty parts). -/
def pySplit (l : List Char) : List (List Char) := splitAux l []

/-- Python `s.endswith(c)` for a one-character suffix. -/
def endsWithChar (l : List Char) (c : Char) : Bool := l.getLast? = some c

/-- Python `pat in hay` (substring containment). -/
def containsSub : List Char → List Char → Bool
  | hay, pat =>
    match hay with
    | [] => pat.isEmpty
    | _ :: rest => pat.isPrefixOf hay || containsSub rest pat

/-- Python `str.isdigit()` (ASCII fragment). -/
def pyIsDigit (l : List Char) : Bool := !l.isEmpty && l.all isAsciiDigit

/-- Python `str.isalpha()` (ASCII fragment). -/
def pyIsAlpha (l : List Char) : Bool := !l.isEmpty && l.all isAsciiAlpha

/-- Value of `int(text)` on a string of decimal digits. -/
def digitsToNat (l : List Char) : Nat := l.foldl (fun a c => a * 10 + (c.toNat - 48)) 0

/-- Python `text.lower()`. -/
def pyLower (l : List Char) : List Char := l.map lowerCh

/-! ### The two name validators of `TaskRabbitParser` -/

/-- The character blacklist of `is_valid_person_name`
(`'!@#$%^&*()_+=[]{}|;:,<>?/~[backtick]'`). -/
def pySpecials : List Char := "!@#$%^&*()_+=\x5b\x5d\x7b\x7d|;:,<>?/~`".data

/-- `TaskRabbitParser.is_valid_person_name` (the strict identity check):
length in `[3, 50]`, contains a space, ends with a period, no digit or
special character outside periods, and `str.split()` yields at least two
parts whose last is a single letter plus period while all earlier parts are
purely alphabetic. -/
def is_valid_person_name (name : String) : Bool :=
  let l := name.data
  if l.length < 3 then false
  else if !(decide (' ' ∈ l)) || !(endsWithChar l '.') then false
  else if (l.filter (fun c => c ≠ '.')).any
      (fun c => isAsciiDigit c || decide (c ∈ pySpecials)) then false
  else if 50 < l.length then false
  else
    let parts := pySplit l
    if parts.length < 2 then false
    else
      let last := parts.getLastD []
      if !(decide (last.length = 2) && isAsciiAlpha (last.headD ' ') &&
          decide (last.getD 1 ' ' = '.')) then false
      else parts.dropLast.all pyIsAlpha

/-- The substring blacklist of `is_potential_name`. -/
def looseKeywords : List (List Char) :=
  ["review".data, "task".data, "hour".data, "$".data, "/hr".data,
   "read".data, "more".data, "select".data, "continue".data]

/-- `TaskRabbitParser.is_potential_name` (the loose identity check):
length in `[3, 50]`, ends with a period, contains a space, contains none of
the blacklisted substrings case-insensitively, and has 2 to 4
whitespace-separated words. -/
def is_potential_name (text : String) : Bool :=
  let l := text.data
  if l.length < 3 || 50 < l.length then false
  else if !(endsWithChar l '.') then false
  else if !(decide (' ' ∈ l)) then false
  else if looseKeywords.any (fun k => containsSub (pyLower l) k) then false
  else
    let wc := (pySplit l).length
    if wc < 2 || 4 < wc then false else true

/-! ### The spec's strict identity pattern (claim C5)

`StrictShape s` states that `s` matches the regular expression
`^[A-Za-z]+(?: [A-Za-z]+)* [A-Za-z]\.$`: one or more purely alphabetic words
separated by single spaces, followed by a space, a letter and a period. -/

/-- Join words, each followed by one space. -/
def wordsJoin : List (List Char) → List Char
  | [] => []
  | w :: ws => w ++ ' ' :: wordsJoin ws

/-- Matching the spec pattern `^[A-Za-z]+(?: [A-Za-z]+)* [A-Za-z]\.$`. -/
def StrictShape (s : String) : Prop :=
  ∃ (ws : List (List Char)) (c : Char),
    ws ≠ [] ∧ (∀ w ∈ ws, pyIsAlpha w = true) ∧ isAsciiAlpha c = true ∧
    s.data = wordsJoin ws ++ [c, '.']

/-! ### Pagination resolver (`get_available_page_numbers` in `scraper.py`)

A pagination element is modelled by its `is_displayed()` flag, its `text`
and its `href` attribute (the code substitutes the empty string when the
attribute is missing).  Each of the three selector groups of
`get_available_page_numbers` (`mui_pagination_selectors`,
`pagination_selectors`, `text_selectors`) is modelled by the concatenation,
in selector order, of the `find_elements` results it would return, which is
how the code iterates them. -/

structure PagElem where
  displayed : Bool
  text : String
  href : String

structure PageDom where
  muiElems : List PagElem
  pagElems : List PagElem
  textElems : List PagElem

/-- `if page_num not in page_numbers: page_numbers.append(page_num)`. -/
def addIfNew (acc : List Nat) (n : Nat) : List Nat :=
  if n ∈ acc then acc else acc ++ [n]

/-- `re.search(r"page=(\d+)", href)`: leftmost occurrence of `page=`
followed by at least one digit, returning the captured number. -/
def findPageParam : List Char → Option Nat
  | 'p' :: 'a' :: 'g' :: 'e' :: '=' :: t =>
    let ds := t.takeWhile isAsciiDigit
    if ds.isEmpty then findPageParam ('a' :: 'g' :: 'e' :: '=' :: t)
    else some (digitsToNat ds)
  | _ :: rest => findPageParam rest
  | [] => none

/-- One element of the MUI pagination phase: a displayed element whose
stripped text is numeric contributes its value, deduplicated. -/
def muiStep (acc : List Nat) (e : PagElem) : List Nat :=
  if e.displayed then
    let t := pyStrip e.text.data
    if pyIsDigit t then addIfNew acc (digitsToNat t) else acc
  else acc

/-- One element of the generic pagination phase: a displayed element with
`page=` in its href contributes the captured page parameter, otherwise a
numeric text label contributes its value. -/
def pagStep (acc : List Nat) (e : PagElem) : List Nat :=
  if e.displayed then
    if containsSub e.href.data "page=".data then
      match findPageParam e.href.data with
      | some n => addIfNew acc n
      | none => acc
    else
      let t := pyStrip e.text.data
      if pyIsDigit t then addIfNew acc (digitsToNat t) else acc
  else acc

/-- One element of the final text-selector phase. -/
def textStep (acc : List Nat) (e : PagElem) : List Nat :=
  if e.displayed then
    let t := pyStrip e.text.data
    if pyIsDigit t then addIfNew acc (digitsToNat t) else acc
  else acc

/-- Insertion into an ascending list. -/
def insertAsc (n : Nat) : List Nat → List Nat
  | [] => [n]
  | m :: rest => if n ≤ m then n :: m :: rest else m :: insertAsc n rest

/-- Ascending sort, modelling Python `list.sort()`. -/
def sortAsc (l : List Nat) : List Nat := l.foldr insertAsc []

/-- Python `max(list)` on the (non-empty) lists of page numbers. -/
def maxOf (l : List Nat) : Nat := l.foldl Nat.max 0

/-- `if ctx.max_pages and len(pages) > ctx.max_pages: pages[:ctx.max_pages]`
(`max_pages` equal to `None` or `0` is falsy and leaves the list alone). -/
def truncCap (mp : Option Nat) (l : List Nat) : List Nat :=
  match mp with
  | none => l
  | some m => if m ≠ 0 ∧ m < l.length then l.take m else l

/-- `get_available_page_numbers(ctx)`: collect displayed numeric MUI labels,
sort ascending; with at least two labels whose maximum exceeds their count,
expand to the dense range `1..max` (elision detection); otherwise fall back
to href/text pagination selectors; each returned list is truncated by
`ctx.max_pages` when that cap is set. -/
def get_available_page_numbers (dom : PageDom) (maxPages : Option Nat) : List Nat :=
  let mui := dom.muiElems.foldl muiStep []
  if !mui.isEmpty then
    let sorted := sortAsc mui
    if 2 ≤ sorted.length ∧ sorted.length < maxOf sorted then
      truncCap maxPages (List.range' 1 (maxOf sorted))
    else truncCap maxPages sorted
  else
    let p2 := dom.pagElems.foldl pagStep []
    if !p2.isEmpty then truncCap maxPages (sortAsc p2)
    else
      let p3 := dom.textElems.foldl textStep []
      if !p3.isEmpty then truncCap maxPages (sortAsc p3)
      else []

/-! ### Regex scanners used by the per-card extraction

Each Python regex used by `extract_taskers_from_current_page` is modelled by
a dedicated scanner over `List Char` that reproduces `re.search` /
`re.findall` semantics (leftmost match, greedy quantifiers with the
backtracking the concrete pattern allows). -/

/-- Strip the literal `pat` from the front of `l` (case-sensitive). -/
def dropLit : List Char → List Char → Option (List Char)
  | [], l => some l
  | _ :: _, [] => none
  | p :: ps, c :: cs => if p = c then dropLit ps cs else none

/-- Strip the literal `pat` from the front of `l`, ignoring ASCII case. -/
def dropLitCI : List Char → List Char → Option (List Char)
  | [], l => some l
  | _ :: _, [] => none
  | p :: ps, c :: cs => if lowerCh p = lowerCh c then dropLitCI ps cs else none

/-- Anchored match of `\$\d+(?:\.\d+)?/hr`, returning the matched text. -/
def rateAt : List Char → Option (List Char)
  | '$' :: t =>
    let d1 := t.takeWhile isAsciiDigit
    if d1.isEmpty then none
    else
      let t1 := t.drop d1.length
      match t1 with
      | '.' :: t2 =>
        let d2 := t2.takeWhile isAsciiDigit
        if d2.isEmpty then
          match dropLit "/hr".data t1 with
          | some _ => some ('$' :: d1 ++ "/hr".data)
          | none => none
        else
          match dropLit "/hr".data (t2.drop d2.length) with
          | some _ => some ('$' :: d1 ++ '.' :: d2 ++ "/hr".data)
          | none =>
            match dropLit "/hr".data t1 with
            | some _ => some ('$' :: d1 ++ "/hr".data)
            | none => none
      | _ =>
        match dropLit "/hr".data t1 with
        | some _ => some ('$' :: d1 ++ "/hr".data)
        | none => none
  | _ => none

/-- `re.search(r"\$\d+(?:\.\d+)?/hr", s)`: leftmost match. -/
def findRate : List Char → Option (List Char)
  | [] => none
  | c :: rest =>
    match rateAt (c :: rest) with
    | some m => some m
    | none => findRate rest

/-- Anchored match of `\$(\d+\.\d+)`, returning the captured group. -/
def dollarDecAt : List Char → Option (List Char)
  | '$' :: t =>
    let d1 := t.takeWhile isAsciiDigit
    if d1.isEmpty then none
    else
      match t.drop d1.length with
      | '.' :: t2 =>
        let d2 := t2.takeWhile isAsciiDigit
        if d2.isEmpty then none else some (d1 ++ '.' :: d2)
      | _ => none
  | _ => none

/-- `re.search(r"\$(\d+\.\d+)", s)`: leftmost match, captured group. -/
def findDollarDec : List Char → Option (List Char)
  | [] => none
  | c :: rest =>
    match dollarDecAt (c :: rest) with
    | some m => some m
    | none => findDollarDec rest

/-- Anchored match of `[A-Z][a-z]+ [A-Z]\.`. -/
def nameAt1 : List Char → Option (List Char)
  | c :: t =>
    if isAsciiUpper c then
      let lows := t.takeWhile isAsciiLower
      if lows.isEmpty then none
      else
        match t.drop lows.length with
        | ' ' :: c2 :: '.' :: _ =>
          if isAsciiUpper c2 then some (c :: lows ++ [' ', c2, '.']) else none
        | _ => none
    else none
  | [] => none

/-- Anchored match of `[A-Z][A-Z]+ [A-Z]\.`. -/
def nameAt2 : List Char → Option (List Char)
  | c :: t =>
    if isAsciiUpper c then
      let ups := t.takeWhile isAsciiUpper
      if ups.isEmpty then none
      else
        match t.drop ups.length with
        | ' ' :: c2 :: '.' :: _ =>
          if isAsciiUpper c2 then some (c :: ups ++ [' ', c2, '.']) else none
        | _ => none
    else none
  | [] => none

/-- Scanner for `\b[A-Z][a-z]+ [A-Z]\.|\b[A-Z][A-Z]+ [A-Z]\.`, threading the
previous character for the word boundary. -/
def findNameRegexAux : Option Char → List Char → Option (List Char)
  | _, [] => none
  | prev, c :: rest =>
    let boundary := match prev with
      | none => true
      | some p => !isWordChar p
    if boundary then
      match nameAt1 (c :: rest) with
      | some m => some m
      | none =>
        match nameAt2 (c :: rest) with
        | some m => some m
        | none => findNameRegexAux (some c) rest
    else findNameRegexAux (some c) rest

/-- `re.findall(r"\b[A-Z][a-z]+ [A-Z]\.|\b[A-Z][A-Z]+ [A-Z]\.", s)[0]`. -/
def findNameRegex (l : List Char) : Option (List Char) := findNameRegexAux none l

/-- Anchored match of `(\d+\.\d+)\s*\((\d+)\s*review`, returning the two
captured groups. -/
def reviewAt (l : List Char) : Option (List Char × List Char) :=
  let d1 := l.takeWhile isAsciiDigit
  if d1.isEmpty then none
  else
    match l.drop d1.length with
    | '.' :: t2 =>
      let d2 := t2.takeWhile isAsciiDigit
      if d2.isEmpty then none
      else
        match (t2.drop d2.length).dropWhile isPySpace with
        | '(' :: t4 =>
          let d3 := t4.takeWhile isAsciiDigit
          if d3.isEmpty then none
          else
            match dropLit "review".data ((t4.drop d3.length).dropWhile isPySpace) with
            | some _ => some (d1 ++ '.' :: d2, d3)
            | none => none
        | _ => none
    | _ => none

/-- `re.search(r"(\d+\.\d+)\s*\((\d+)\s*review", s)`: leftmost match. -/
def findReview : List Char → Option (List Char × List Char)
  | [] => none
  | c :: rest =>
    match reviewAt (c :: rest) with
    | some m => some m
    | none => findReview rest

/-- Anchored match of `(\d+)\s+<lit>` (optionally case-insensitive),
returning the captured digits. -/
def countAt (ci : Bool) (lit : List Char) (l : List Char) : Option (List Char) :=
  let d := l.takeWhile isAsciiDigit
  if d.isEmpty then none
  else
    let t1 := l.drop d.length
    let ws := t1.takeWhile isPySpace
    if ws.isEmpty then none
    else
      match (if ci then dropLitCI lit (t1.drop ws.length)
             else dropLit lit (t1.drop ws.length)) with
      | some _ => some d
      | none => none

/-- `re.search(r"(\d+)\s+<lit>", s)`: leftmost match, captured digits. -/
def findCount (ci : Bool) (lit : List Char) : List Char → Option (List Char)
  | [] => none
  | c :: rest =>
    match countAt ci lit (c :: rest) with
    | some m => some m
    | none => findCount ci lit rest

/-- The ordered `overall_patterns` literals (all searched `re.IGNORECASE`). -/
def overallPatterns : List (List Char) :=
  ["Assembly tasks overall".data, "tasks overall".data, "overall tasks".data,
   "total tasks".data, "tasks completed".data]

/-- First `overall_patterns` entry with a match, in order. -/
def findOverall (l : List Char) : Option (List Char) :=
  overallPatterns.findSome? (fun lit => findCount true lit l)

/-- The literal of the furniture-count pattern (case-sensitive search). -/
def furnitureLit : List Char := "Furniture Assembly tasks".data

/-- Token of a literal-and-`\s*` regex such as `2\s*Hour\s*Minimum`. -/
inductive RTok where
  | lit : List Char → RTok
  | ws0 : RTok

/-- Anchored, case-insensitive match of a literal-and-`\s*` token list. -/
def matchToks : List RTok → List Char → Bool
  | [], _ => true
  | RTok.lit p :: rest, l =>
    match dropLitCI p l with
    | some l2 => matchToks rest l2
    | none => false
  | RTok.ws0 :: rest, l => matchToks rest (l.dropWhile isPySpace)

/-- `re.search` of a literal-and-`\s*` token list. -/
def searchToks (toks : List RTok) : List Char → Bool
  | [] => matchToks toks []
  | c :: rest => matchToks toks (c :: rest) || searchToks toks rest

/-- The five `minimum_patterns` regexes, searched `re.IGNORECASE`. -/
def minPatterns : List (List RTok) :=
  [[RTok.lit "2".data, RTok.ws0, RTok.lit "Hour".data, RTok.ws0, RTok.lit "Minimum".data],
   [RTok.lit "2".data, RTok.ws0, RTok.lit "hr".data, RTok.ws0, RTok.lit "minimum".data],
   [RTok.lit "2".data, RTok.ws0, RTok.lit "hour".data, RTok.ws0, RTok.lit "min".data],
   [RTok.lit "minimum".data, RTok.ws0, RTok.lit "2".data, RTok.ws0, RTok.lit "hour".data],
   [RTok.lit "min".data, RTok.ws0, RTok.lit "2".data, RTok.ws0, RTok.lit "hr".data]]

/-- Any of the `minimum_patterns` matches. -/
def anyMinPattern (l : List Char) : Bool := minPatterns.any (fun p => searchToks p l)

/-- Anchored `\b<w>\b` occurrence at the head of `l` (boundary before the
head is checked by the caller). -/
def wordAt (w : List Char) (l : List Char) : Bool :=
  match dropLit w l with
  | some [] => true
  | some (c :: _) => !isWordChar c
  | none => false

/-- Scanner for `\b<w>\b`, threading the previous character. -/
def searchWordAux (w : List Char) : Option Char → List Char → Bool
  | _, [] => false
  | prev, c :: rest =>
    let boundary := match prev with
      | none => true
      | some p => !isWordChar p
    (boundary && wordAt w (c :: rest)) || searchWordAux w (some c) rest

/-- `re.search(r"\b<w>\b", s)` for a word-character literal `w`. -/
def searchWord (w l : List Char) : Bool := searchWordAux w none l

/-- The three `elite_patterns` literals (case-sensitive). -/
def elitePatterns : List (List Char) := ["Elite".data, "ELITE".data, "elite".data]

/-- Any of the `elite_patterns` matches. -/
def anyElitePattern (l : List Char) : Bool := elitePatterns.any (fun w => searchWord w l)

/-- Parse one word of the HTML name patterns: a character satisfying `p1`
followed by one or more characters satisfying `pr` (greedy). -/
def parseWord (p1 pr : Char → Bool) : List Char → Option (List Char × List Char)
  | c :: t =>
    if p1 c then
      let rest := t.takeWhile pr
      if rest.isEmpty then none
      else some (c :: rest, t.drop rest.length)
    else none
  | [] => none

/-- Backtracking parser for `(?:\s+<word>)*\s+[A-Z]\.` followed by `<`,
preferring a further word over the closing initial, as the greedy `*` does.
Returns the consumed capture (up to the period) and the input after the
closing `<`. -/
def seqTail (p1 pr : Char → Bool) : Nat → List Char → Option (List Char × List Char)
  | 0, _ => none
  | fuel + 1, l =>
    let ws := l.takeWhile isPySpace
    if ws.isEmpty then none
    else
      let l1 := l.drop ws.length
      let viaWord : Option (List Char × List Char) :=
        match parseWord p1 pr l1 with
        | some (w, l2) =>
          match seqTail p1 pr fuel l2 with
          | some (mid, rest) => some (ws ++ w ++ mid, rest)
          | none => none
        | none => none
      match viaWord with
      | some r => some r
      | none =>
        match l1 with
        | c :: '.' :: '<' :: rest =>
          if isAsciiUpper c then some (ws ++ [c, '.'], rest) else none
        | _ => none

/-- Anchored match of the two-alternative HTML name pattern
`>([A-Za-z][a-z]+(?:\s+[A-Za-z][a-z]+)*\s+[A-Z]\.)<` or
`>([A-Z][A-Z]+(?:\s+[A-Z][A-Z]+)*\s+[A-Z]\.)<`, returning the captured
group and the input following the match. -/
def htmlNameAt (l : List Char) : Option (List Char × List Char) :=
  match l with
  | '>' :: t =>
    let g1 :=
      match parseWord isAsciiAlpha isAsciiLower t with
      | some (w, t2) =>
        match seqTail isAsciiAlpha isAsciiLower t2.length t2 with
        | some (mid, rest) => some (w ++ mid, rest)
        | none => none
      | none => none
    match g1 with
    | some r => some r
    | none =>
      match parseWord isAsciiUpper isAsciiUpper t with
      | some (w, t2) =>
        match seqTail isAsciiUpper isAsciiUpper t2.length t2 with
        | some (mid, rest) => some (w ++ mid, rest)
        | none => none
      | none => none
  | _ => none

/-- Iterate the non-overlapping `re.findall` matches of the HTML name
pattern, returning the first capture accepted by `is_potential_name`
(`for pattern_match in html_name_patterns: ...`). -/
def findHtmlNameAux : Nat → List Char → Option (List Char)
  | 0, _ => none
  | _, [] => none
  | fuel + 1, c :: rest =>
    match htmlNameAt (c :: rest) with
    | some (cap, after) =>
      if is_potential_name (String.mk cap) then some cap
      else findHtmlNameAux fuel after
    | none => findHtmlNameAux fuel rest

/-- First loose-valid capture of the HTML name pattern. -/
def findHtmlName (l : List Char) : Option (List Char) := findHtmlNameAux (l.length + 1) l

/-! ### Per-card extraction (`extract_taskers_from_current_page`)

A card is modelled by the element lists its selector cascades would return
(concatenated in selector order), its `text`, its `innerHTML` attribute, and
the visibility answers of the structural flag fallbacks. -/

structure Elem where
  displayed : Bool
  text : String

structure Card where
  /-- `NAME_SELECTORS_CARD` results, concatenated in selector order. -/
  nameElems : List Elem
  /-- `.//*[text()]` element texts, in document order. -/
  textElems : List String
  /-- `RATE_SELECTORS_CARD` results, concatenated in selector order. -/
  rateElems : List Elem
  /-- the two review selectors' element texts, concatenated in order. -/
  reviewElems : List String
  /-- `card.text`. -/
  cardText : String
  /-- `card.get_attribute('innerHTML')`. -/
  innerHTML : Option String
  /-- whether any element of the structural minimum selectors is displayed. -/
  minVisible : Bool
  /-- whether any element of the structural elite selectors is displayed. -/
  eliteVisible : Bool

/-- `card.get_attribute('innerHTML')` followed by a Python truthiness test
(`if card_html:`): a missing or empty attribute is falsy. -/
def getHtml (c : Card) : Option String :=
  match c.innerHTML with
  | none => none
  | some h => if h.data.isEmpty then none else some h

/-- `card.get_attribute('innerHTML') or ''`. -/
def htmlOrEmpty (c : Card) : String :=
  match c.innerHTML with
  | none => ""
  | some h => h

/-- First displayed element whose stripped text passes the loose check
(name selector tier). -/
def firstLooseElem (elems : List Elem) : Option String :=
  elems.findSome? (fun e =>
    if e.displayed then
      let t := pyStrip e.text.data
      if is_potential_name (String.mk t) then some (String.mk t) else none
    else none)

/-- First text element whose stripped text passes the loose check. -/
def firstLooseText (ts : List String) : Option String :=
  ts.findSome? (fun s =>
    let t := pyStrip s.data
    if is_potential_name (String.mk t) then some (String.mk t) else none)

/-- The name extraction cascade: loose-validated selector text, then the
card-text regex, then loose-validated text elements, then the loose-validated
HTML patterns, then the `"Name not found"` sentinel. -/
def extractName (c : Card) : String :=
  match firstLooseElem c.nameElems with
  | some n => n
  | none =>
    match findNameRegex c.cardText.data with
    | some m => String.mk m
    | none =>
      match firstLooseText c.textElems with
      | some n => n
      | none =>
        match getHtml c with
        | some h =>
          match findHtmlName h.data with
          | some m => String.mk m
          | none => "Name not found"
        | none => "Name not found"

/-- The structural rate acceptance test:
`'$' in t and '/hr' in t and len(t) < 20 and re.search(rate_regex, t)`. -/
def rateElemOk (t : List Char) : Bool :=
  t.contains '$' && containsSub t "/hr".data && decide (t.length < 20) &&
    (findRate t).isSome

/-- First displayed rate-selector element whose stripped text is accepted. -/
def firstRateElem (elems : List Elem) : Option String :=
  elems.findSome? (fun e =>
    if e.displayed then
      let t := pyStrip e.text.data
      if rateElemOk t then some (String.mk t) else none
    else none)

/-- The rate extraction cascade: structural selectors, regex over `card.text`,
regex over `innerHTML`, `\$(\d+\.\d+)` over `innerHTML` rebuilt as
`f"${m}/hr"`, then the `"Rate not found"` sentinel. -/
def extractRate (c : Card) : String :=
  match firstRateElem c.rateElems with
  | some t => t
  | none =>
    match findRate c.cardText.data with
    | some m => String.mk m
    | none =>
      match getHtml c with
      | some h =>
        match findRate h.data with
        | some m => String.mk m
        | none =>
          match findDollarDec h.data with
          | some d => String.mk ('$' :: d ++ "/hr".data)
          | none => "Rate not found"
      | none => "Rate not found"

/-- The review extraction cascade: review-selector element texts, then
`card.text`, then `innerHTML`, then the `"Not found"` sentinels.  Returns
`(review_rating, review_count)`. -/
def extractReview (c : Card) : String × String :=
  match c.reviewElems.findSome? (fun s => findReview (pyStrip s.data)) with
  | some (r, n) => (String.mk r, String.mk n)
  | none =>
    match findReview c.cardText.data with
    | some (r, n) => (String.mk r, String.mk n)
    | none =>
      match getHtml c with
      | some h =>
        match findReview h.data with
        | some (r, n) => (String.mk r, String.mk n)
        | none => ("Not found", "Not found")
      | none => ("Not found", "Not found")

/-- The task-count extraction: furniture and overall counts over `card.text`;
on failure retry over `innerHTML` when it is truthy, the overall count
falling back to the `"None"` sentinel there.  Returns
`(furniture_tasks, overall_tasks)`. -/
def extractTasks (c : Card) : String × String :=
  let ft := match findCount false furnitureLit c.cardText.data with
    | some d => String.mk d
    | none => "Not found"
  let ot := match findOverall c.cardText.data with
    | some d => String.mk d
    | none => "Not found"
  if ft = "Not found" ∨ ot = "Not found" then
    match getHtml c with
    | some h =>
      let ft2 := if ft = "Not found" then
          (match findCount false furnitureLit h.data with
           | some d => String.mk d
           | none => "Not found")
        else ft
      let ot2 := if ot = "Not found" then
          (match findOverall h.data with
           | some d => String.mk d
           | none => "None")
        else ot
      (ft2, ot2)
    | none => (ft, ot)
  else (ft, ot)

/-- The `two_hour_minimum` OR-cascade: `minimum_patterns` over `card.text`,
then over `innerHTML or ''`, then the structural visibility check. -/
def extractTwoHour (c : Card) : Bool :=
  anyMinPattern c.cardText.data || anyMinPattern (htmlOrEmpty c).data || c.minVisible

/-- The `elite_status` OR-cascade. -/
def extractElite (c : Card) : Bool :=
  anyElitePattern c.cardText.data || anyElitePattern (htmlOrEmpty c).data || c.eliteVisible

/-- `rate.replace('/hr', '')` (left-to-right, non-overlapping). -/
def removeHr : List Char → List Char
  | '/' :: 'h' :: 'r' :: rest => removeHr rest
  | c :: rest => c :: removeHr rest
  | [] => []

/-- `rate.endswith('/hr')`. -/
def endsWithHr (l : List Char) : Bool :=
  match l.reverse with
  | 'r' :: 'h' :: '/' :: _ => true
  | _ => false

/-- `if rate != "Rate not found" and rate.endswith('/hr'):
rate.replace('/hr', '')`. -/
def cleanRate (rate : String) : String :=
  if rate ≠ "Rate not found" ∧ endsWithHr rate.data then String.mk (removeHr rate.data)
  else rate

/-- One extracted row (`tasker = { ... }` dict of `scraper.py`): the dict
literal always carries exactly these eight keys, the first six string-valued
and the two flags boolean-valued. -/
structure Record where
  name : String
  hourly_rate : String
  review_rating : String
  review_count : String
  furniture_tasks : String
  overall_tasks : String
  two_hour_minimum : Bool
  elite_status : Bool
deriving DecidableEq, Repr

/-- The per-card body of the extraction loop: extract a name; a card whose
name is the sentinel, or fails the strict `is_valid_person_name` gate,
contributes nothing (`continue`); otherwise all remaining fields are
extracted and the record dict is assembled. -/
def processCard (c : Card) : Option Record :=
  let nm := extractName c
  if nm = "Name not found" then none
  else if is_valid_person_name nm then
    let rr := extractReview c
    let tk := extractTasks c
    some {
      name := nm
      hourly_rate := cleanRate (extractRate c)
      review_rating := rr.1
      review_count := rr.2
      furniture_tasks := tk.1
      overall_tasks := tk.2
      two_hour_minimum := extractTwoHour c
      elite_status := extractElite c }
  else none

/-- The card lists the container-discovery cascade would return: the primary
selector's result, and the results of the four fallback selectors in order. -/
structure PageEnv where
  primaryCards : List Card
  fallbackCards : List (List Card)

/-- First non-empty fallback selector result (`for selector in
fallback_selectors: ... if tasker_cards: break`). -/
def firstNonemptyCards : List (List Card) → List Card
  | [] => []
  | l :: ls => if l.isEmpty then firstNonemptyCards ls else l

/-- `extract_taskers_from_current_page(ctx)`: locate cards via the discovery
cascade, cap at 15 per page, and collect the records of the cards that pass
the name gate. -/
def extract_taskers_from_current_page (p : PageEnv) : List Record :=
  let cards :=
    if !p.primaryCards.isEmpty then p.primaryCards
    else firstNonemptyCards p.fallbackCards
  (cards.take 15).filterMap processCard

/-! ### The page walker (`extract_tasker_data`) -/

/-- The walker's collaborator snapshot: the pagination control state of the
first page, the configured `max_pages` cap, the outcome of
`navigate_to_page_number` per index, and the card state of each page once it
is current. -/
structure Ctx where
  dom : PageDom
  maxPages : Option Nat
  navOk : Nat → Bool
  pageState : Nat → PageEnv

/-- `available_pages = get_available_page_numbers(ctx) or [1]`. -/
def resolvedPages (ctx : Ctx) : List Nat :=
  let ap := get_available_page_numbers ctx.dom ctx.maxPages
  if ap.isEmpty then [1] else ap

/-- One iteration of the page loop: pages beyond the first whose navigation
fails are skipped; otherwise the page's records are appended (a page
yielding zero records appends nothing and the loop continues). -/
def walkStep (ctx : Ctx) (acc : List Record) (p : Nat) : List Record :=
  if 1 < p ∧ ctx.navOk p = false then acc
  else acc ++ extract_taskers_from_current_page (ctx.pageState p)

/-- `extract_tasker_data(ctx)`: resolve the page set once, then walk it in
order, accumulating per-page records. -/
def extract_tasker_data (ctx : Ctx) : List Record :=
  (resolvedPages ctx).foldl (walkStep ctx) []

/-- Whether a resolved index is actually collected by the walk: page 1 needs
no navigation, later pages only when their navigation verified. -/
def keepPage (ctx : Ctx) (p : Nat) : Bool := !(decide (1 < p) && !ctx.navOk p)

/-! ### Lemmas about characters and splitting -/

theorem alpha_not_space {c : Char} (h : isAsciiAlpha c = true) : isPySpace c = false := by
  have h' : (65 ≤ c.toNat ∧ c.toNat ≤ 90) ∨ (97 ≤ c.toNat ∧ c.toNat ≤ 122) := by
    simpa [isAsciiAlpha, isAsciiUpper, isAsciiLower] using h
  simp only [isPySpace, Bool.or_eq_false_iff, decide_eq_false_iff_not]
  omega

theorem alpha_not_digit {c : Char} (h : isAsciiAlpha c = true) : isAsciiDigit c = false := by
  have h' : (65 ≤ c.toNat ∧ c.toNat ≤ 90) ∨ (97 ≤ c.toNat ∧ c.toNat ≤ 122) := by
    simpa [isAsciiAlpha, isAsciiUpper, isAsciiLower] using h
  simp only [isAsciiDigit, Bool.and_eq_false_iff, decide_eq_false_iff_not]
  omega

theorem alpha_not_special {c : Char} (h : isAsciiAlpha c = true) : c ∉ pySpecials := by
  intro hm
  have hall : ∀ x ∈ pySpecials, isAsciiAlpha x = false := by decide
  rw [hall c hm] at h
  exact Bool.false_ne_true h

theorem pyIsAlpha_spec {w : List Char} (h : pyIsAlpha w = true) :
    w ≠ [] ∧ ∀ ch ∈ w, isAsciiAlpha ch = true := by
  simp only [pyIsAlpha, Bool.and_eq_true] at h
  refine ⟨?_, fun ch hch => List.all_eq_true.mp h.2 ch hch⟩
  intro he
  subst he
  simp at h

theorem splitAux_nonspace : ∀ (w rest acc : List Char),
    (∀ ch ∈ w, isPySpace ch = false) →
    splitAux (w ++ rest) acc = splitAux rest (w.reverse ++ acc) := by
  intro w
  induction w with
  | nil => intro rest acc _; simp
  | cons ch w ih =>
    intro rest acc hw
    have hch : isPySpace ch = false := hw ch (by simp)
    simp only [List.cons_append, splitAux, hch, Bool.false_eq_true, if_false]
    rw [show (w.append rest) = w ++ rest from rfl,
      ih rest (ch :: acc) (fun x hx => hw x (by simp [hx]))]
    simp

theorem splitAux_words {c : Char} (hc : isAsciiAlpha c = true) :
    ∀ ws : List (List Char), (∀ w ∈ ws, pyIsAlpha w = true) →
    splitAux (wordsJoin ws ++ [c, '.']) [] = ws ++ [[c, '.']] := by
  intro ws
  induction ws with
  | nil =>
    intro _
    have h1 : isPySpace c = false := alpha_not_space hc
    have h2 : isPySpace '.' = false := by decide
    simp [wordsJoin, splitAux, h1, h2]
  | cons w ws ih =>
    intro hws
    have hw := pyIsAlpha_spec (hws w (by simp))
    have hwns : ∀ ch ∈ w, isPySpace ch = false :=
      fun ch hch => alpha_not_space (hw.2 ch hch)
    have hrev : w.reverse ≠ [] := by simpa using hw.1
    calc splitAux (wordsJoin (w :: ws) ++ [c, '.']) []
        = splitAux (w ++ (' ' :: (wordsJoin ws ++ [c, '.']))) [] := by
          simp [wordsJoin, List.append_assoc]
      _ = splitAux (' ' :: (wordsJoin ws ++ [c, '.'])) (w.reverse ++ []) :=
          splitAux_nonspace w _ [] hwns
      _ = w :: splitAux (wordsJoin ws ++ [c, '.']) [] := by
          simp only [List.append_nil, splitAux]
          rw [if_pos (by decide), if_neg (by simpa using hrev)]
          simp
      _ = w :: (ws ++ [[c, '.']]) := by rw [ih (fun x hx => hws x (by simp [hx]))]
      _ = (w :: ws) ++ [[c, '.']] := rfl

theorem pySplit_strict {ws : List (List Char)} {c : Char}
    (hws : ∀ w ∈ ws, pyIsAlpha w = true) (hc : isAsciiAlpha c = true) :
    pySplit (wordsJoin ws ++ [c, '.']) = ws ++ [[c, '.']] :=
  splitAux_words hc ws hws

theorem mem_wordsJoin {ws : List (List Char)} (hws : ∀ w ∈ ws, pyIsAlpha w = true) :
    ∀ x ∈ wordsJoin ws, isAsciiAlpha x = true ∨ x = ' ' := by
  induction ws with
  | nil => simp [wordsJoin]
  | cons w ws ih =>
    intro x hx
    simp only [wordsJoin, List.mem_append, List.mem_cons] at hx
    rcases hx with h | h | h
    · exact Or.inl ((pyIsAlpha_spec (hws w (by simp))).2 x h)
    · exact Or.inr h
    · exact ih (fun v hv => hws v (by simp [hv])) x h

/-! ### Claim theorems for the identity validators (C5, C6, C7) -/

/-- C5: every string matching the spec's strict identity pattern
`[A-Za-z]+( [A-Za-z]+)* [A-Za-z]\.` whose length is at most 50 characters is
accepted by the strict identity check `is_valid_person_name`. -/
theorem strict_pattern_accepted (s : String) (hs : StrictShape s)
    (hlen : s.length ≤ 50) : is_valid_person_name s = true := by
  obtain ⟨ws, c, hne, hws, hc, hdata⟩ := hs
  obtain ⟨w, ws', rfl⟩ := List.exists_cons_of_ne_nil hne
  have hdata50 : s.data.length ≤ 50 := hlen
  have hwlen : 1 ≤ w.length :=
    List.length_pos.mpr (pyIsAlpha_spec (hws w (by simp))).1
  have hlen3 : ¬ (s.data.length < 3) := by
    rw [hdata]
    simp only [wordsJoin, List.length_append, List.length_cons]
    omega
  have hsp : ' ' ∈ s.data := by
    rw [hdata]
    simp only [wordsJoin]
    exact List.mem_append_left _
      (List.mem_append_right _ (List.mem_cons_self _ _))
  have hend : s.data.getLast? = some '.' := by
    rw [hdata, show ([c, '.'] : List Char) = [c] ++ ['.'] from rfl,
      ← List.append_assoc]
    exact List.getLast?_concat _
  have hany : ((s.data.filter fun x => x ≠ '.').any
      fun x => isAsciiDigit x || decide (x ∈ pySpecials)) = false := by
    rw [Bool.eq_false_iff]
    intro hcon
    obtain ⟨x, hx, hpx⟩ := List.any_eq_true.mp hcon
    obtain ⟨hxl, hxne'⟩ := List.mem_filter.mp hx
    have hxne : x ≠ '.' := by simpa using hxne'
    have hgood : isAsciiDigit x = false ∧ x ∉ pySpecials := by
      rw [hdata] at hxl
      rcases List.mem_append.mp hxl with hxa | hxb
      · rcases mem_wordsJoin hws x hxa with ha | hspc
        · exact ⟨alpha_not_digit ha, alpha_not_special ha⟩
        · subst hspc; exact ⟨by decide, by decide⟩
      · rcases (by simpa using hxb : x = c ∨ x = '.') with rfl | rfl
        · exact ⟨alpha_not_digit hc, alpha_not_special hc⟩
        · exact absurd rfl hxne
    rw [hgood.1, decide_eq_false hgood.2] at hpx
    simp at hpx
  have hparts : pySplit s.data = (w :: ws') ++ [[c, '.']] := by
    rw [hdata]; exact pySplit_strict hws hc
  have hPlast : ((w :: ws') ++ [[c, '.']]).getLastD [] = [c, '.'] :=
    List.getLastD_concat _ _ _
  have hPdrop : ((w :: ws') ++ [[c, '.']]).dropLast = w :: ws' :=
    List.dropLast_concat
  unfold is_valid_person_name
  simp only []
  rw [if_neg hlen3]
  rw [if_neg (by simp [hsp, endsWithChar, hend])]
  rw [if_neg (by rw [hany]; simp)]
  rw [if_neg (by omega)]
  rw [hparts]
  rw [if_neg (by simp)]
  rw [hPlast]
  rw [if_neg (by simp [hc])]
  rw [hPdrop]
  exact List.all_eq_true.mpr hws

/-- C5 witness: the concrete string `"Ivan T."` matches the strict pattern,
has length at most 50, and is accepted. -/
theorem strict_pattern_accepted_witness :
    StrictShape "Ivan T." ∧ ("Ivan T.".length ≤ 50) ∧
    is_valid_person_name "Ivan T." = true := by
  have hs : StrictShape "Ivan T." :=
    ⟨[['I', 'v', 'a', 'n']], 'T', by decide, by decide, by decide, by decide⟩
  exact ⟨hs, by decide, strict_pattern_accepted "Ivan T." hs (by decide)⟩

/-- C6 counterexample: `"A B C D E."` is accepted by the strict check
`is_valid_person_name` but rejected by the loose check `is_potential_name`
(five whitespace-separated words exceed the loose cap of four), so the strict
tier is not a subset of the loose tier. -/
theorem strict_not_subset_loose_cex :
    is_valid_person_name "A B C D E." = true ∧
    is_potential_name "A B C D E." = false := by
  constructor <;> decide

/-- C6 amended: the strict check implies the loose check only for strings of
at most four whitespace-separated words containing none of the loose tier's
blacklisted substrings case-insensitively. -/
theorem strict_implies_loose_bounded (s : String)
    (hv : is_valid_person_name s = true)
    (hwc : (pySplit s.data).length ≤ 4)
    (hkw : looseKeywords.any (fun k => containsSub (pyLower s.data) k) = false) :
    is_potential_name s = true := by
  have hsl : s.length = s.data.length := rfl
  unfold is_valid_person_name at hv
  simp only [] at hv
  by_cases h1 : s.data.length < 3
  · rw [if_pos h1] at hv; exact absurd hv (by simp)
  rw [if_neg h1] at hv
  by_cases h2 : (!(decide (' ' ∈ s.data)) || !(endsWithChar s.data '.')) = true
  · rw [if_pos h2] at hv; exact absurd hv (by simp)
  rw [if_neg h2] at hv
  simp only [Bool.or_eq_true, Bool.not_eq_true', decide_eq_false_iff_not, not_or] at h2
  by_cases h3 : ((s.data.filter fun x => x ≠ '.').any
      fun x => isAsciiDigit x || decide (x ∈ pySpecials)) = true
  · rw [if_pos h3] at hv; exact absurd hv (by simp)
  rw [if_neg h3] at hv
  by_cases h4 : 50 < s.data.length
  · rw [if_pos h4] at hv; exact absurd hv (by simp)
  rw [if_neg h4] at hv
  by_cases h5 : (pySplit s.data).length < 2
  · rw [if_pos h5] at hv; exact absurd hv (by simp)
  rw [if_neg h5] at hv
  have hsp : ' ' ∈ s.data := by
    rcases h2 with ⟨h2a, _⟩
    by_contra hn
    exact h2a (by simpa using hn)
  have hend : endsWithChar s.data '.' = true := by
    rcases h2 with ⟨_, h2b⟩
    by_contra hn
    exact h2b (by simpa using hn)
  unfold is_potential_name
  simp only []
  rw [if_neg (by simp; omega)]
  rw [if_neg (by simp [hend])]
  rw [if_neg (by simp [hsp])]
  rw [if_neg (by simp [hkw])]
  rw [if_neg (by simp; omega)]

/-- C6 amended witness at `"Ivan T."`. -/
theorem strict_implies_loose_bounded_witness :
    is_valid_person_name "Ivan T." = true ∧
    is_potential_name "Ivan T." = true := by
  refine ⟨by decide, strict_implies_loose_bounded "Ivan T." (by decide) (by decide) (by decide)⟩

/-- C7 counterexample: the loose identity check `is_potential_name` accepts
`"Abc: De."` even though it contains a colon, so colon-rejection does not
hold at the loose tier. -/
theorem loose_accepts_colon_cex :
    (':' ∈ "Abc: De.".data) ∧ is_potential_name "Abc: De." = true := by
  constructor <;> decide

/-- C7 amended: every string containing a colon is rejected by the strict
identity check `is_valid_person_name` (the final gate); the loose tier does
not share this guarantee. -/
theorem colon_rejected_strict (s : String) (h : ':' ∈ s.data) :
    is_valid_person_name s = false := by
  unfold is_valid_person_name
  simp only []
  split
  · rfl
  split
  · rfl
  split
  · rfl
  next h3 =>
    exact absurd
      (List.any_eq_true.mpr
        ⟨':', List.mem_filter.mpr ⟨h, by decide⟩, by decide⟩) h3

/-- C7 amended witness at `"a: b."`. -/
theorem colon_rejected_strict_witness :
    (':' ∈ "a: b.".data) ∧ is_valid_person_name "a: b." = false :=
  ⟨by decide, colon_rejected_strict "a: b." (by decide)⟩

/-! ### Claim theorems for the pagination resolver (C1) -/

theorem insertAsc_length (n : Nat) : ∀ l : List Nat, (insertAsc n l).length = l.length + 1 := by
  intro l
  induction l with
  | nil => rfl
  | cons m rest ih =>
    unfold insertAsc
    split
    · simp
    · simp [ih]

theorem sortAsc_length (l : List Nat) : (sortAsc l).length = l.length := by
  unfold sortAsc
  induction l with
  | nil => rfl
  | cons a l ih => simp [List.foldr_cons, insertAsc_length, ih]

/-- C1: whenever the collected, deduplicated, ascending list of numeric MUI
pagination labels has at least two entries and its maximum exceeds the
number of labels collected, the resolver (with no configured page cap)
returns the full dense range `1..max`, taking the maximum visible label as
the true final page. -/
theorem elided_pagination_full_range (dom : PageDom)
    (h2 : 2 ≤ (sortAsc (dom.muiElems.foldl muiStep [])).length)
    (hmax : (sortAsc (dom.muiElems.foldl muiStep [])).length <
      maxOf (sortAsc (dom.muiElems.foldl muiStep []))) :
    get_available_page_numbers dom none =
      List.range' 1 (maxOf (sortAsc (dom.muiElems.foldl muiStep []))) := by
  have hne : (dom.muiElems.foldl muiStep []).isEmpty = false := by
    cases hcase : dom.muiElems.foldl muiStep [] with
    | nil =>
      rw [hcase] at h2
      simp [sortAsc] at h2
    | cons a l => rfl
  unfold get_available_page_numbers
  simp only [hne, Bool.not_false, if_true]
  rw [if_pos ⟨h2, hmax⟩]
  rfl

/-- C1 witness: a control exposing the labels `1 2 3 4 5 24` resolves to the
24-element dense range `1..24`. -/
theorem elided_pagination_full_range_witness :
    get_available_page_numbers
      ⟨[⟨true, "1", ""⟩, ⟨true, "2", ""⟩, ⟨true, "3", ""⟩,
        ⟨true, "4", ""⟩, ⟨true, "5", ""⟩, ⟨true, "24", ""⟩], [], []⟩ none =
      List.range' 1 24 ∧ (List.range' 1 24).length = 24 := by
  constructor
  · rw [elided_pagination_full_range _ (by decide) (by decide)]
    decide
  · decide

/-! ### Lemmas about the walker and the per-card processing -/

theorem foldl_walkStep (ctx : Ctx) : ∀ (l : List Nat) (acc : List Record),
    l.foldl (walkStep ctx) acc =
      acc ++ (l.filter (keepPage ctx)).flatMap
        (fun p => extract_taskers_from_current_page (ctx.pageState p)) := by
  intro l
  induction l with
  | nil => intro acc; simp
  | cons p l ih =>
    intro acc
    by_cases h : 1 < p ∧ ctx.navOk p = false
    · have hk : keepPage ctx p = false := by
        simp [keepPage, h.1, h.2]
      simp only [List.foldl_cons, walkStep, if_pos h, List.filter_cons, hk,
        Bool.false_eq_true, if_false]
      exact ih acc
    · have hk : keepPage ctx p = true := by
        simp only [keepPage, Bool.not_eq_false']
        rcases not_and_or.mp h with h1 | h2
        · simp [h1]
        · have hnv : ctx.navOk p = true := by
            cases hv : ctx.navOk p
            · exact absurd hv h2
            · rfl
          simp [hnv]
      simp only [List.foldl_cons, walkStep, if_neg h, List.filter_cons, hk, if_true]
      rw [ih (acc ++ _)]
      simp [List.append_assoc]

theorem processCard_eq {c : Card} {r : Record} (h : processCard c = some r) :
    r = { name := extractName c, hourly_rate := cleanRate (extractRate c),
          review_rating := (extractReview c).1, review_count := (extractReview c).2,
          furniture_tasks := (extractTasks c).1, overall_tasks := (extractTasks c).2,
          two_hour_minimum := extractTwoHour c, elite_status := extractElite c } ∧
    extractName c ≠ "Name not found" ∧
    is_valid_person_name (extractName c) = true := by
  simp only [processCard] at h
  split at h
  · cases h
  next h1 =>
    split at h
    next h2 => exact ⟨(Option.some.inj h).symm, h1, h2⟩
    · cases h

theorem extractRate_sentinel {c : Card}
    (hst : firstRateElem c.rateElems = none)
    (htx : findRate c.cardText.data = none)
    (hh : ∀ h, getHtml c = some h → findRate h.data = none ∧ findDollarDec h.data = none) :
    extractRate c = "Rate not found" := by
  unfold extractRate
  rw [hst, htx]
  cases hg : getHtml c with
  | none => rfl
  | some h =>
    obtain ⟨h1, h2⟩ := hh h hg
    show (match findRate h.data with
      | some m => String.mk m
      | none =>
        match findDollarDec h.data with
        | some d => String.mk ('$' :: d ++ "/hr".data)
        | none => "Rate not found") = "Rate not found"
    rw [h1, h2]

theorem extractReview_sentinel {c : Card}
    (hel : c.reviewElems.findSome? (fun s => findReview (pyStrip s.data)) = none)
    (htx : findReview c.cardText.data = none)
    (hh : ∀ h, getHtml c = some h → findReview h.data = none) :
    extractReview c = ("Not found", "Not found") := by
  unfold extractReview
  rw [hel, htx]
  cases hg : getHtml c with
  | none => rfl
  | some h =>
    show (match findReview h.data with
      | some (r, n) => (String.mk r, String.mk n)
      | none => ("Not found", "Not found")) = ("Not found", "Not found")
    rw [hh h hg]

theorem extractTasks_furniture_sentinel {c : Card}
    (hf : findCount false furnitureLit c.cardText.data = none)
    (hh : ∀ h, getHtml c = some h → findCount false furnitureLit h.data = none) :
    (extractTasks c).1 = "Not found" := by
  unfold extractTasks
  rw [hf]
  simp only []
  rw [if_pos (Or.inl trivial)]
  cases hg : getHtml c with
  | none => rfl
  | some h =>
    dsimp only []
    rw [hh h hg]
    simp

theorem extractTasks_overall_sentinel {c : Card}
    (ho : findOverall c.cardText.data = none)
    (hh : ∀ h, getHtml c = some h → findOverall h.data = none) :
    (extractTasks c).2 = (match getHtml c with
      | some _ => "None"
      | none => "Not found") := by
  unfold extractTasks
  rw [ho]
  simp only []
  rw [if_pos (Or.inr trivial)]
  cases hg : getHtml c with
  | none => rfl
  | some h =>
    dsimp only []
    rw [hh h hg]
    simp

/-! ### Claim theorems for the walker and extraction (C2, C3, C4, C8, C9, C10) -/

/-- C2 counterexample: on a container whose structural price selectors yield
nothing and whose raw markup contains `$39.23/hr`, the extracted and
normalized rate is `"$39.23"` — the `/hr` suffix is stripped but the
currency sign is retained — so extraction does not yield `"39.23"` as the
claim states. -/
theorem raw_markup_rate_keeps_dollar_cex :
    cleanRate (extractRate ⟨[], [], [], [], "", some "<b>$39.23/hr</b>", false, false⟩) =
      "$39.23" ∧
    cleanRate (extractRate ⟨[], [], [], [], "", some "<b>$39.23/hr</b>", false, false⟩) ≠
      "39.23" := by
  constructor <;> decide

/-- C2 amended: when the structural rate selectors yield nothing valid, the
visible card text has no rate match, and the first rate-shaped match of the
raw markup is `$39.23/hr`, the rate cascade recovers `"$39.23/hr"` from the
markup tier and the record stores it as `"$39.23"`: the trailing `/hr` unit
suffix is stripped while the currency sign is kept. -/
theorem raw_markup_rate_fallback (c : Card) (h : String)
    (hst : firstRateElem c.rateElems = none)
    (htx : findRate c.cardText.data = none)
    (hht : getHtml c = some h)
    (hm : findRate h.data = some "$39.23/hr".data) :
    extractRate c = "$39.23/hr" ∧ cleanRate (extractRate c) = "$39.23" := by
  have he : extractRate c = "$39.23/hr" := by
    unfold extractRate
    rw [hst, htx, hht]
    dsimp only []
    rw [hm]
  refine ⟨he, ?_⟩
  rw [he]
  decide

/-- C2 amended witness at a concrete card. -/
theorem raw_markup_rate_fallback_witness :
    extractRate ⟨[], [], [], [], "", some "<i>$39.23/hr</i>", false, false⟩ = "$39.23/hr" ∧
    cleanRate (extractRate ⟨[], [], [], [], "", some "<i>$39.23/hr</i>", false, false⟩) =
      "$39.23" :=
  raw_markup_rate_fallback _ "<i>$39.23/hr</i>" (by decide) (by decide) (by decide) (by decide)

/-- C3: every record of the per-page collection carries a name that passed
the strict identity validation (containers whose identity is absent or fails
the strict check contribute nothing), and hence so does every record of the
whole walk's result. -/
theorem records_have_valid_identity :
    (∀ (p : PageEnv) (r : Record), r ∈ extract_taskers_from_current_page p →
      is_valid_person_name r.name = true) ∧
    (∀ (ctx : Ctx) (r : Record), r ∈ extract_tasker_data ctx →
      is_valid_person_name r.name = true) := by
  have hpage : ∀ (p : PageEnv) (r : Record), r ∈ extract_taskers_from_current_page p →
      is_valid_person_name r.name = true := by
    intro p r hr
    unfold extract_taskers_from_current_page at hr
    obtain ⟨c, _, hc⟩ := List.mem_filterMap.mp hr
    obtain ⟨hrec, _, hvalid⟩ := processCard_eq hc
    rw [hrec]
    exact hvalid
  refine ⟨hpage, fun ctx r hr => ?_⟩
  unfold extract_tasker_data at hr
  rw [foldl_walkStep, List.nil_append] at hr
  obtain ⟨q, _, hq⟩ := List.mem_flatMap.mp hr
  exact hpage _ r hq

/-- C3 witness: a record collected from a concrete page has a strictly valid
name. -/
theorem records_have_valid_identity_witness :
    is_valid_person_name
      (Record.name ⟨"Ivan T.", "Rate not found", "Not found", "Not found",
        "Not found", "Not found", false, false⟩) = true :=
  records_have_valid_identity.1
    ⟨[⟨[⟨true, "Ivan T."⟩], [], [], [], "", none, false, false⟩], []⟩
    _ (by decide)

/-- C4: the walk is a total function of the collaborator responses — for
every context it returns the concatenation, in page order, of the per-page
record lists over the resolved pages that were reached, and when every page
yields zero records the result is the empty list, not an error signal. -/
theorem walk_total_no_abort (ctx : Ctx) :
    extract_tasker_data ctx =
      ((resolvedPages ctx).filter (keepPage ctx)).flatMap
        (fun p => extract_taskers_from_current_page (ctx.pageState p)) ∧
    ((∀ p, extract_taskers_from_current_page (ctx.pageState p) = []) →
      extract_tasker_data ctx = []) := by
  constructor
  · unfold extract_tasker_data
    rw [foldl_walkStep, List.nil_append]
  · intro hz
    unfold extract_tasker_data
    rw [foldl_walkStep, List.nil_append]
    induction ((resolvedPages ctx).filter (keepPage ctx)) with
    | nil => rfl
    | cons q l ih => simp [hz, ih]

/-- C4 witness: a walk over an empty collaborator environment returns `[]`. -/
theorem walk_total_no_abort_witness :
    extract_tasker_data ⟨⟨[], [], []⟩, none, fun _ => true, fun _ => ⟨[], []⟩⟩ = [] :=
  (walk_total_no_abort ⟨⟨[], [], []⟩, none, fun _ => true, fun _ => ⟨[], []⟩⟩).2
    (fun _ => rfl)

/-- C8: a page yielding zero valid records never halts the walk: with the
resolved index set `[1, 2, 3]`, verified navigation, and page 2 yielding no
records, the result is page 1's records followed by page 3's, and its length
is `N1 + N3`. -/
theorem zero_record_page_continues (ctx : Ctx)
    (hres : resolvedPages ctx = [1, 2, 3])
    (hn2 : ctx.navOk 2 = true) (hn3 : ctx.navOk 3 = true)
    (hz : extract_taskers_from_current_page (ctx.pageState 2) = []) :
    extract_tasker_data ctx =
      extract_taskers_from_current_page (ctx.pageState 1) ++
        extract_taskers_from_current_page (ctx.pageState 3) ∧
    (extract_tasker_data ctx).length =
      (extract_taskers_from_current_page (ctx.pageState 1)).length +
        (extract_taskers_from_current_page (ctx.pageState 3)).length := by
  have he : extract_tasker_data ctx =
      extract_taskers_from_current_page (ctx.pageState 1) ++
        extract_taskers_from_current_page (ctx.pageState 3) := by
    unfold extract_tasker_data
    rw [hres]
    simp [walkStep, hn2, hn3, hz]
  exact ⟨he, by rw [he, List.length_append]⟩

/-- C8 witness: a concrete three-page walk where page 2 is empty yields the
two records of pages 1 and 3. -/
theorem zero_record_page_continues_witness :
    extract_tasker_data
      ⟨⟨[⟨true, "1", ""⟩, ⟨true, "2", ""⟩, ⟨true, "3", ""⟩], [], []⟩, none,
        fun _ => true,
        fun p =>
          if p = 1 then ⟨[⟨[⟨true, "Ivan T."⟩], [], [], [], "", none, false, false⟩], []⟩
          else if p = 3 then ⟨[⟨[⟨true, "Petr K."⟩], [], [], [], "", none, false, false⟩], []⟩
          else ⟨[], []⟩⟩ =
      extract_taskers_from_current_page
        ⟨[⟨[⟨true, "Ivan T."⟩], [], [], [], "", none, false, false⟩], []⟩ ++
      extract_taskers_from_current_page
        ⟨[⟨[⟨true, "Petr K."⟩], [], [], [], "", none, false, false⟩], []⟩ :=
  (zero_record_page_continues _ (by decide) rfl rfl (by decide)).1

/-- C9: a page exposing no pagination controls at all resolves to the
single-page set `[1]` and the walk processes exactly page 1; an unpaginated
page is not an error. -/
theorem no_pagination_single_page (ctx : Ctx)
    (hm : ctx.dom.muiElems = []) (hp : ctx.dom.pagElems = [])
    (ht : ctx.dom.textElems = []) :
    get_available_page_numbers ctx.dom ctx.maxPages = [] ∧
    resolvedPages ctx = [1] ∧
    extract_tasker_data ctx = extract_taskers_from_current_page (ctx.pageState 1) := by
  have hg : get_available_page_numbers ctx.dom ctx.maxPages = [] := by
    unfold get_available_page_numbers
    rw [hm, hp, ht]
    rfl
  have hr : resolvedPages ctx = [1] := by
    unfold resolvedPages
    rw [hg]
    rfl
  refine ⟨hg, hr, ?_⟩
  unfold extract_tasker_data
  rw [hr]
  simp [walkStep]

/-- C9 witness at a concrete unpaginated page. -/
theorem no_pagination_single_page_witness :
    resolvedPages ⟨⟨[], [], []⟩, some 5, fun _ => false,
        fun _ => ⟨[⟨[⟨true, "Ivan T."⟩], [], [], [], "", none, false, false⟩], []⟩⟩ = [1] ∧
    extract_tasker_data ⟨⟨[], [], []⟩, some 5, fun _ => false,
        fun _ => ⟨[⟨[⟨true, "Ivan T."⟩], [], [], [], "", none, false, false⟩], []⟩⟩ =
      extract_taskers_from_current_page
        ⟨[⟨[⟨true, "Ivan T."⟩], [], [], [], "", none, false, false⟩], []⟩ :=
  ⟨(no_pagination_single_page _ rfl rfl rfl).2.1,
   (no_pagination_single_page _ rfl rfl rfl).2.2⟩

/-- C10 counterexample: a record produced from a card with no usable raw
markup (`innerHTML` absent) and no overall-count match carries
`overall_tasks = "Not found"`, not the claimed `"None"`, although every
fallback of the overall-count cascade found nothing. -/
theorem overall_sentinel_cex :
    extract_taskers_from_current_page
      ⟨[⟨[⟨true, "Ivan T."⟩], [], [], [], "", none, false, false⟩], []⟩ =
      [{ name := "Ivan T.", hourly_rate := "Rate not found",
         review_rating := "Not found", review_count := "Not found",
         furniture_tasks := "Not found", overall_tasks := "Not found",
         two_hour_minimum := false, elite_status := false }] := by
  decide

/-- C10 amended: every record of the per-page collection arises from a card
through `processCard`, so it carries exactly the eight fields of the
`tasker` dict with the two flags genuinely boolean; a field whose cascade
found nothing carries its sentinel string: `"Rate not found"` for the rate,
`"Not found"` for the review fields and the furniture count, and for
`overall_tasks` the sentinel `"None"` only when the raw-markup fallback ran
(truthy `innerHTML`) and failed, while it stays `"Not found"` when no raw
markup was available. -/
theorem record_shape_and_sentinels (p : PageEnv) (r : Record)
    (hr : r ∈ extract_taskers_from_current_page p) :
    ∃ c : Card, processCard c = some r ∧
      (firstRateElem c.rateElems = none → findRate c.cardText.data = none →
        (∀ h, getHtml c = some h → findRate h.data = none ∧ findDollarDec h.data = none) →
        r.hourly_rate = "Rate not found") ∧
      (c.reviewElems.findSome? (fun s => findReview (pyStrip s.data)) = none →
        findReview c.cardText.data = none →
        (∀ h, getHtml c = some h → findReview h.data = none) →
        r.review_rating = "Not found" ∧ r.review_count = "Not found") ∧
      (findCount false furnitureLit c.cardText.data = none →
        (∀ h, getHtml c = some h → findCount false furnitureLit h.data = none) →
        r.furniture_tasks = "Not found") ∧
      (findOverall c.cardText.data = none →
        (∀ h, getHtml c = some h → findOverall h.data = none) →
        r.overall_tasks = (match getHtml c with
          | some _ => "None"
          | none => "Not found")) := by
  unfold extract_taskers_from_current_page at hr
  obtain ⟨c, _, hc⟩ := List.mem_filterMap.mp hr
  obtain ⟨hrec, _, _⟩ := processCard_eq hc
  refine ⟨c, hc, ?_, ?_, ?_, ?_⟩
  · intro hst htx hh
    rw [hrec]
    show cleanRate (extractRate c) = "Rate not found"
    rw [extractRate_sentinel hst htx hh]
    decide
  · intro hel htx hh
    rw [hrec]
    constructor
    · show (extractReview c).1 = "Not found"
      rw [extractReview_sentinel hel htx hh]
    · show (extractReview c).2 = "Not found"
      rw [extractReview_sentinel hel htx hh]
  · intro hf hh
    rw [hrec]
    exact extractTasks_furniture_sentinel hf hh
  · intro ho hh
    rw [hrec]
    exact extractTasks_overall_sentinel ho hh

/-- C10 amended witness at a concrete page whose single card has usable raw
markup without counts: the stored record has the `"None"` overall sentinel. -/
theorem record_shape_and_sentinels_witness :
    ∃ c : Card, processCard c = some
      { name := "Ivan T.", hourly_rate := "Rate not found",
        review_rating := "Not found", review_count := "Not found",
        furniture_tasks := "Not found", overall_tasks := "None",
        two_hour_minimum := false, elite_status := false } ∧
      (firstRateElem c.rateElems = none → findRate c.cardText.data = none →
        (∀ h, getHtml c = some h → findRate h.data = none ∧ findDollarDec h.data = none) →
        Record.hourly_rate ⟨"Ivan T.", "Rate not found", "Not found", "Not found",
          "Not found", "None", false, false⟩ = "Rate not found") ∧
      (c.reviewElems.findSome? (fun s => findReview (pyStrip s.data)) = none →
        findReview c.cardText.data = none →
        (∀ h, getHtml c = some h → findReview h.data = none) →
        Record.review_rating ⟨"Ivan T.", "Rate not found", "Not found", "Not found",
          "Not found", "None", false, false⟩ = "Not found" ∧
        Record.review_count ⟨"Ivan T.", "Rate not found", "Not found", "Not found",
          "Not found", "None", false, false⟩ = "Not found") ∧
      (findCount false furnitureLit c.cardText.data = none →
        (∀ h, getHtml c = some h → findCount false furnitureLit h.data = none) →
        Record.furniture_tasks ⟨"Ivan T.", "Rate not found", "Not found", "Not found",
          "Not found", "None", false, false⟩ = "Not found") ∧
      (findOverall c.cardText.data = none →
        (∀ h, getHtml c = some h → findOverall h.data = none) →
        Record.overall_tasks ⟨"Ivan T.", "Rate not found", "Not found", "Not found",
          "Not found", "None", false, false⟩ = (match getHtml c with
          | some _ => "None"
          | none => "Not found")) :=
  record_shape_and_sentinels
    ⟨[⟨[⟨true, "Ivan T."⟩], [], [], [], "", some "<hr>", false, false⟩], []⟩
    _ (by decide)

end TRS
